import Mathlib

/-!
Verification development for the ViralShorts repository.

Part 1 models the timeline editor reducer from
`src/frontend/src/context/EditorContext.tsx` (types, `calculateDuration`,
`findClip`, `saveToHistory`, `editorReducer`).  JavaScript numbers are
modelled as rationals, `undefined`-able fields as `Option`, and the
`uuidv4()` calls inside the reducer as an explicit `freshId` argument.

Part 2 models the export (transcode) pipeline of the
`POST /:projectId/export` route in `src/backend/src/routes/uploads.routes.ts`
(non-mock path): the ordered stages, the progress events they emit, the
scratch files they create and remove, and the per-clip audio-mix gains.
-/

namespace ViralShorts

/-- `'video' | 'audio'` (the `type` field of a clip). -/
inductive MediaKind where
  | video
  | audio
deriving DecidableEq

/-- `'video' | 'audio' | 'subtitle'` (the `type` field of a track). -/
inductive TrackKind where
  | video
  | audio
  | subtitle
deriving DecidableEq

/-- `'top' | 'center' | 'bottom'`. -/
inductive SubtitlePos where
  | top
  | center
  | bottom
deriving DecidableEq

/-- `TimelineClip` (EditorContext.tsx).  `kind` models the `type` field. -/
structure TimelineClip where
  id : String
  sourceId : String
  sourceUrl : String
  startTime : ℚ
  duration : ℚ
  trimStart : ℚ
  trimEnd : ℚ
  kind : MediaKind
deriving DecidableEq

/-- `TimelineTrack` (EditorContext.tsx); optional fields are `Option`. -/
structure TimelineTrack where
  id : String
  name : String
  kind : TrackKind
  clips : List TimelineClip
  muted : Option Bool
  volume : Option ℚ
  locked : Option Bool
  visible : Option Bool
deriving DecidableEq

/-- The `style` record of a `SubtitleItem`. -/
structure SubtitleStyle where
  preset : String
  fontSize : ℚ
  color : String
  backgroundColor : String
  pos : SubtitlePos
deriving DecidableEq

/-- `SubtitleItem` (EditorContext.tsx). -/
structure SubtitleItem where
  id : String
  text : String
  startTime : ℚ
  endTime : ℚ
  style : SubtitleStyle
deriving DecidableEq

/-- `EditorSnapshot`: the deep copy of `{tracks, subtitles}` kept in history. -/
structure EditorSnapshot where
  tracks : List TimelineTrack
  subtitles : List SubtitleItem
deriving DecidableEq

/-- The `history` field of `EditorState`. -/
structure EditorHistory where
  past : List EditorSnapshot
  future : List EditorSnapshot
deriving DecidableEq

/-- `EditorState` (EditorContext.tsx). -/
structure EditorState where
  tracks : List TimelineTrack
  subtitles : List SubtitleItem
  playhead : ℚ
  duration : ℚ
  zoom : ℚ
  isPlaying : Bool
  selectedClipId : Option String
  selectedSubtitleId : Option String
  clipboard : Option TimelineClip
  history : EditorHistory
  exportProgress : Option ℚ
  previewUrl : Option String
deriving DecidableEq

/-- `Partial<SubtitleItem>`: the `updates` payload of `UPDATE_SUBTITLE`. -/
structure SubtitleUpdates where
  id : Option String
  text : Option String
  startTime : Option ℚ
  endTime : Option ℚ
  style : Option SubtitleStyle
deriving DecidableEq

/-- `EditorAction` (EditorContext.tsx), one constructor per action type. -/
inductive EditorAction where
  | setTracks (tracks : List TimelineTrack)
  | addClip (trackId : String) (clip : TimelineClip)
  | removeClip (clipId : String)
  | moveClip (clipId : String) (newStartTime : ℚ) (newTrackId : Option String)
  | trimClip (clipId : String) (trimStart trimEnd : ℚ)
  | splitClip (clipId : String) (splitPoint : ℚ)
  | selectClip (clipId : Option String)
  | copyClip (clipId : String)
  | pasteClip (trackId : String) (startTime : ℚ)
  | addTrack (track : TimelineTrack)
  | removeTrack (trackId : String)
  | toggleTrackMute (trackId : String)
  | toggleTrackLock (trackId : String)
  | toggleTrackVisibility (trackId : String)
  | setTrackVolume (trackId : String) (volume : ℚ)
  | loadProjectData (tracks : List TimelineTrack) (subtitles : List SubtitleItem)
  | addSubtitle (sub : SubtitleItem)
  | updateSubtitle (subtitleId : String) (updates : SubtitleUpdates)
  | removeSubtitle (subtitleId : String)
  | selectSubtitle (subtitleId : Option String)
  | setPlayhead (time : ℚ)
  | setPlaying (isPlaying : Bool)
  | setZoom (zoom : ℚ)
  | undo
  | redo
  | setExportProgress (progress : Option ℚ)
  | setPreviewUrl (url : Option String)
  | reset
deriving DecidableEq

/-- `clip.startTime + clip.duration`, the right edge of a clip. -/
def clipEnd (c : TimelineClip) : ℚ := c.startTime + c.duration

/-- One track's contribution to `calculateDuration`: fold the
`if (clipEnd > maxEnd) maxEnd = clipEnd` update over the track's clips. -/
def trackMaxEnd (acc : ℚ) (t : TimelineTrack) : ℚ :=
  t.clips.foldl (fun m c => if clipEnd c > m then clipEnd c else m) acc

/-- `calculateDuration` (EditorContext.tsx lines 135-144). -/
def calculateDuration (tracks : List TimelineTrack) : ℚ :=
  tracks.foldl trackMaxEnd 0

/-- `Array.prototype.findIndex`-style search of a clip id, carrying the
running index. -/
def findClipInClips (clipId : String) : Nat → List TimelineClip → Option (Nat × TimelineClip)
  | _, [] => none
  | j, c :: cs => if c.id = clipId then some (j, c) else findClipInClips clipId (j + 1) cs

/-- The result record of `findClip`: first track containing the clip,
its index, and the clip with its index in that track. -/
structure ClipLoc where
  trackIdx : Nat
  track : TimelineTrack
  clipIdx : Nat
  clip : TimelineClip
deriving DecidableEq

def findClipAux (clipId : String) : Nat → List TimelineTrack → Option ClipLoc
  | _, [] => none
  | i, t :: ts =>
    match findClipInClips clipId 0 t.clips with
    | some (j, c) => some ⟨i, t, j, c⟩
    | none => findClipAux clipId (i + 1) ts

/-- `findClip` (EditorContext.tsx lines 147-158). -/
def findClip (tracks : List TimelineTrack) (clipId : String) : Option ClipLoc :=
  findClipAux clipId 0 tracks

/-- `Array.prototype.find` by track id, also returning the index. -/
def findTrackAux (trackId : String) : Nat → List TimelineTrack → Option (Nat × TimelineTrack)
  | _, [] => none
  | i, t :: ts => if t.id = trackId then some (i, t) else findTrackAux trackId (i + 1) ts

def findTrack (tracks : List TimelineTrack) (trackId : String) : Option (Nat × TimelineTrack) :=
  findTrackAux trackId 0 tracks

/-- In-place assignment `l[n] = a` (no-op past the end). -/
def setAt (a : α) : Nat → List α → List α
  | _, [] => []
  | 0, _ :: xs => a :: xs
  | n + 1, x :: xs => x :: setAt a n xs

/-- `l.splice(n, 0, a)`. -/
def insertAt (a : α) : Nat → List α → List α
  | _, [] => [a]
  | 0, xs => a :: xs
  | n + 1, x :: xs => x :: insertAt a n xs

/-- `l.splice(n, 1)`. -/
def removeAt : Nat → List α → List α
  | _, [] => []
  | 0, _ :: xs => xs
  | n + 1, x :: xs => x :: removeAt n xs

/-- Apply `f` to the element at index `n` (no-op past the end). -/
def modifyAt (f : α → α) : Nat → List α → List α
  | _, [] => []
  | 0, x :: xs => f x :: xs
  | n + 1, x :: xs => x :: modifyAt f n xs

/-- Stable insertion of `a` into `l`, placing it after existing elements
with an equal key (matching the stability of `Array.prototype.sort`). -/
def insertByKey (key : α → ℚ) (a : α) : List α → List α
  | [] => [a]
  | x :: xs => if key a < key x then a :: x :: xs else x :: insertByKey key a xs

/-- Stable sort by a rational key, modelling
`arr.sort((a, b) => a.startTime - b.startTime)`. -/
def stableSortByKey (key : α → ℚ) (l : List α) : List α :=
  l.foldl (fun acc x => insertByKey key x acc) []

/-- The snapshot `{tracks, subtitles}` taken by `saveToHistory`
(the `JSON.parse(JSON.stringify(...))` deep copy is the identity on values). -/
def mkSnapshot (s : EditorState) : EditorSnapshot := ⟨s.tracks, s.subtitles⟩

/-- `past.push(snap)` followed by the 50-item cap
(`if (past.length > 50) past.shift()`). -/
def pushLimit (past : List EditorSnapshot) (snap : EditorSnapshot) : List EditorSnapshot :=
  if 50 < (past ++ [snap]).length then (past ++ [snap]).tail else past ++ [snap]

/-- `saveToHistory` (EditorContext.tsx lines 120-132). -/
def saveToHistory (s : EditorState) : EditorState :=
  { s with history := ⟨pushLimit s.history.past (mkSnapshot s), []⟩ }

/-- The `initialState` constant of EditorContext.tsx. -/
def initialState : EditorState where
  tracks :=
    [⟨"video-track-1", "Video 1", .video, [], none, none, some false, some true⟩,
     ⟨"audio-track-1", "Audio 1", .audio, [], none, some 1, some false, some true⟩]
  subtitles := []
  playhead := 0
  duration := 0
  zoom := 1
  isPlaying := false
  selectedClipId := none
  selectedSubtitleId := none
  clipboard := none
  history := ⟨[], []⟩
  exportProgress := none
  previewUrl := none

/-- Object-spread merge `{...old, ...updates}` for `UPDATE_SUBTITLE`. -/
def applySubtitleUpdates (u : SubtitleUpdates) (s : SubtitleItem) : SubtitleItem :=
  ⟨u.id.getD s.id, u.text.getD s.text, u.startTime.getD s.startTime,
   u.endTime.getD s.endTime, u.style.getD s.style⟩

/-- Replace the first subtitle with the given id by its merged update
(`findIndex` + assignment). -/
def updateFirstSubtitle (sid : String) (u : SubtitleUpdates) :
    List SubtitleItem → List SubtitleItem
  | [] => []
  | x :: xs =>
    if x.id = sid then applySubtitleUpdates u x :: xs
    else x :: updateFirstSubtitle sid u xs

/-- Remove the first clip with the given id from a clip list
(`findIndex` + `splice(index, 1)`). -/
def removeClipFromClips (cid : String) : List TimelineClip → List TimelineClip
  | [] => []
  | c :: cs => if c.id = cid then cs else c :: removeClipFromClips cid cs

/-- `REMOVE_CLIP`'s track loop: splice the clip out of the first track that
contains it, then `break`. -/
def removeFirstClipTracks (cid : String) : List TimelineTrack → List TimelineTrack
  | [] => []
  | t :: ts =>
    if t.clips.any (fun c => c.id = cid) then
      { t with clips := removeClipFromClips cid t.clips } :: ts
    else t :: removeFirstClipTracks cid ts

/-- Mutate the first track found by id (`tracks.find(...)` + in-place update). -/
def modifyFirstTrackById (tid : String) (f : TimelineTrack → TimelineTrack) :
    List TimelineTrack → List TimelineTrack
  | [] => []
  | t :: ts => if t.id = tid then f t :: ts else t :: modifyFirstTrackById tid f ts

/-- The same-track branch of `MOVE_CLIP`: reposition the clip, then re-sort
that track. -/
def moveSameTrack (ns : EditorState) (loc : ClipLoc) (newStartTime : ℚ) : EditorState :=
  let c' := { loc.clip with startTime := max 0 newStartTime }
  let tracks' := modifyAt
    (fun t => { t with clips := stableSortByKey (fun c => c.startTime) (setAt c' loc.clipIdx t.clips) })
    loc.trackIdx ns.tracks
  { ns with tracks := tracks', duration := calculateDuration tracks' }

/-- `editorReducer` (EditorContext.tsx lines 160-453).  `freshId` stands for
the `uuidv4()` value generated inside `SPLIT_CLIP` / `PASTE_CLIP`. -/
def editorReducer (freshId : String) (s : EditorState) (a : EditorAction) : EditorState :=
  match a with
  | .setTracks tracks =>
    { s with tracks := tracks, duration := calculateDuration tracks }
  | .addClip trackId clip =>
    let ns := saveToHistory s
    match findTrack ns.tracks trackId with
    | some (i, _) =>
      let tracks' := modifyAt
        (fun t => { t with clips := stableSortByKey (fun c => c.startTime) (t.clips ++ [clip]) })
        i ns.tracks
      { ns with tracks := tracks', duration := calculateDuration tracks' }
    | none => ns
  | .removeClip clipId =>
    let ns := saveToHistory s
    let tracks' := removeFirstClipTracks clipId ns.tracks
    { ns with
      tracks := tracks'
      selectedClipId := if ns.selectedClipId = some clipId then none else ns.selectedClipId
      duration := calculateDuration tracks' }
  | .moveClip clipId newStartTime newTrackId =>
    let ns := saveToHistory s
    match findClip ns.tracks clipId with
    | none => ns
    | some loc =>
      match newTrackId with
      | some tid =>
        if tid ≠ "" ∧ tid ≠ loc.track.id then
          match findTrack ns.tracks tid with
          | some (k, target) =>
            if target.kind = loc.track.kind then
              let c' := { loc.clip with startTime := max 0 newStartTime }
              let tracks₁ := modifyAt
                (fun t => { t with clips := removeAt loc.clipIdx t.clips }) loc.trackIdx ns.tracks
              let tracks₂ := modifyAt
                (fun t => { t with clips := stableSortByKey (fun c => c.startTime) (t.clips ++ [c']) })
                k tracks₁
              { ns with tracks := tracks₂, duration := calculateDuration tracks₂ }
            else { ns with duration := calculateDuration ns.tracks }
          | none => { ns with duration := calculateDuration ns.tracks }
        else moveSameTrack ns loc newStartTime
      | none => moveSameTrack ns loc newStartTime
  | .trimClip clipId ts te =>
    let ns := saveToHistory s
    match findClip ns.tracks clipId with
    | none => ns
    | some loc =>
      let c' := { loc.clip with
        trimStart := ts
        trimEnd := te
        duration := loc.clip.duration - ts - te }
      let tracks' := modifyAt
        (fun t => { t with clips := setAt c' loc.clipIdx t.clips }) loc.trackIdx ns.tracks
      { ns with tracks := tracks', duration := calculateDuration tracks' }
  | .splitClip clipId splitPoint =>
    let ns := saveToHistory s
    match findClip ns.tracks clipId with
    | none => ns
    | some loc =>
      let rel := splitPoint - loc.clip.startTime
      if rel ≤ 0 ∨ loc.clip.duration ≤ rel then ns
      else
        let second : TimelineClip :=
          { loc.clip with
            id := freshId
            startTime := splitPoint
            duration := loc.clip.duration - rel
            trimStart := loc.clip.trimStart + rel }
        let first₁ := { loc.clip with duration := rel }
        let first₂ := { first₁ with trimEnd := first₁.trimEnd + (first₁.duration - rel) }
        let tracks' := modifyAt
          (fun t => { t with clips := insertAt second (loc.clipIdx + 1) (setAt first₂ loc.clipIdx t.clips) })
          loc.trackIdx ns.tracks
        { ns with tracks := tracks' }
  | .selectClip cid => { s with selectedClipId := cid, selectedSubtitleId := none }
  | .copyClip cid =>
    match findClip s.tracks cid with
    | none => s
    | some loc => { s with clipboard := some loc.clip }
  | .pasteClip trackId startTime =>
    match s.clipboard with
    | none => s
    | some clip =>
      let ns := saveToHistory s
      match findTrack ns.tracks trackId with
      | none => ns
      | some (i, _) =>
        let newClip := { clip with id := freshId, startTime := startTime }
        let tracks' := modifyAt
          (fun t => { t with clips := stableSortByKey (fun c => c.startTime) (t.clips ++ [newClip]) })
          i ns.tracks
        { ns with tracks := tracks', duration := calculateDuration tracks' }
  | .addTrack track =>
    let ns := saveToHistory s
    { ns with tracks := ns.tracks ++ [track] }
  | .removeTrack trackId =>
    let ns := saveToHistory s
    { ns with tracks := ns.tracks.filter (fun t => ¬ (t.id = trackId)) }
  | .toggleTrackMute tid =>
    { s with tracks := modifyFirstTrackById tid (fun t => { t with muted := some (! t.muted.getD false) }) s.tracks }
  | .toggleTrackLock tid =>
    { s with tracks := modifyFirstTrackById tid (fun t => { t with locked := some (! t.locked.getD false) }) s.tracks }
  | .toggleTrackVisibility tid =>
    { s with tracks := modifyFirstTrackById tid (fun t => { t with visible := some (! t.visible.getD false) }) s.tracks }
  | .setTrackVolume tid v =>
    { s with tracks := modifyFirstTrackById tid (fun t => { t with volume := some v }) s.tracks }
  | .loadProjectData tracks subtitles =>
    let tracks' := if 0 < tracks.length then tracks else s.tracks
    { s with
      tracks := tracks'
      subtitles := subtitles
      duration := calculateDuration tracks'
      history := ⟨[], []⟩ }
  | .addSubtitle sub =>
    let ns := saveToHistory s
    { ns with subtitles := stableSortByKey (fun x => x.startTime) (ns.subtitles ++ [sub]) }
  | .updateSubtitle sid u =>
    let ns := saveToHistory s
    { ns with subtitles := updateFirstSubtitle sid u ns.subtitles }
  | .removeSubtitle sid =>
    let ns := saveToHistory s
    { ns with
      subtitles := ns.subtitles.filter (fun x => ¬ (x.id = sid))
      selectedSubtitleId := if ns.selectedSubtitleId = some sid then none else ns.selectedSubtitleId }
  | .selectSubtitle sid => { s with selectedSubtitleId := sid, selectedClipId := none }
  | .setPlayhead time => { s with playhead := max 0 (min time s.duration) }
  | .setPlaying p => { s with isPlaying := p }
  | .setZoom z => { s with zoom := max (1 / 10) (min 10 z) }
  | .undo =>
    match s.history.past.getLast? with
    | none => s
    | some prev =>
      { s with
        history := ⟨s.history.past.dropLast, mkSnapshot s :: s.history.future⟩
        tracks := prev.tracks
        subtitles := prev.subtitles
        duration := calculateDuration prev.tracks }
  | .redo =>
    match s.history.future with
    | [] => s
    | next :: rest =>
      { s with
        history := ⟨s.history.past ++ [mkSnapshot s], rest⟩
        tracks := next.tracks
        subtitles := next.subtitles
        duration := calculateDuration next.tracks }
  | .setExportProgress p => { s with exportProgress := p }
  | .setPreviewUrl u => { s with previewUrl := u }
  | .reset => initialState

/-!
Part 2: the export pipeline of `POST /:projectId/export`
(src/backend/src/routes/uploads.routes.ts, non-mock path).
External effects (network downloads, ffmpeg invocations, the upload) are
modelled by an oracle `ExportEnv` saying which of them succeed.
-/

/-- One entry of the `clips` array accepted by `exportVideoSchema`. -/
structure ExportClip where
  lineId : String
  videoUrl : String
  audioUrl : Option String
  startTime : ℚ
  duration : ℚ
  trimStart : ℚ
  trimEnd : ℚ
deriving DecidableEq

/-- One entry of `subtitles.words`. -/
structure SubtitleWord where
  word : String
  startTime : ℚ
  endTime : ℚ
deriving DecidableEq

/-- The `subtitles.style` object of the export request. -/
structure SubtitleStyleCfg where
  color : String
  bgColor : String
  fontSize : String
deriving DecidableEq

/-- The optional `subtitles` object of the export request. -/
structure SubtitlesConfig where
  enabled : Bool
  style : Option SubtitleStyleCfg
  words : Option (List SubtitleWord)
deriving DecidableEq

/-- The parsed body of an export request (`exportVideoSchema`). -/
structure ExportRequest where
  clips : List ExportClip
  subtitles : Option SubtitlesConfig
  audioMix : ℚ
deriving DecidableEq

/-- Oracle for the run's external effects: which downloads, ffmpeg
invocations and the final upload succeed. -/
structure ExportEnv where
  videoDlOk : Nat → Bool
  audioDlOk : Nat → Bool
  processOk : Nat → Bool
  concatOk : Bool
  burnOk : Bool
  copyOk : Bool
  uploadOk : Bool

/-- One `export:progress` emission `{progress, status}`. -/
structure ProgressEvent where
  progress : Nat
  status : String
deriving DecidableEq

/-- The observable trace of one export run: progress events, scratch files
created and removed, per-clip audio gains applied, and the outcome. -/
structure ExportRun where
  events : List ProgressEvent
  created : List String
  removed : List String
  gains : List (ℚ × ℚ)
  success : Bool
  failedEmitted : Bool
deriving DecidableEq

/-- `Number.prototype.toFixed(2)` on a non-negative rational: round to the
nearest hundredth, ties away from zero (the spec picks the larger `n`). -/
def toFixed2 (q : ℚ) : ℚ := (⌊q * 100 + 1 / 2⌋ : ℚ) / 100

def videoFileName (i : Nat) : String := "video_" ++ toString i ++ ".mp4"

def voiceFileName (i : Nat) : String := "voiceover_" ++ toString i ++ ".mp3"

def processedFileName (i : Nat) : String := "processed_" ++ toString i ++ ".mp4"

/-- Output of the download loop. -/
structure DlOut where
  events : List ProgressEvent
  files : List String
  ok : Bool
deriving DecidableEq

/-- Output of the per-clip processing loop. -/
structure ProcOut where
  events : List ProgressEvent
  files : List String
  gains : List (ℚ × ℚ)
  ok : Bool
deriving DecidableEq

/-- The download loop (route lines 216-231): per clip, download the video,
then the voiceover when `audioUrl` is set, then emit
`{5 + floor((i / n) * 15), downloading}`.  A failed `fetch` throws before
any file is written. -/
def dlLoop (env : ExportEnv) (n : Nat) : List ExportClip → Nat → DlOut
  | [], _ => ⟨[], [], true⟩
  | clip :: rest, i =>
    if env.videoDlOk i then
      match clip.audioUrl with
      | some _ =>
        if env.audioDlOk i then
          let r := dlLoop env n rest (i + 1)
          ⟨⟨5 + i * 15 / n, "downloading"⟩ :: r.events,
           videoFileName i :: voiceFileName i :: r.files, r.ok⟩
        else ⟨[], [videoFileName i], false⟩
      | none =>
        let r := dlLoop env n rest (i + 1)
        ⟨⟨5 + i * 15 / n, "downloading"⟩ :: r.events, videoFileName i :: r.files, r.ok⟩
    else ⟨[], [], false⟩

/-- The per-clip processing loop (route lines 238-303): compute the two
`volume=` gains when a voiceover is present, run ffmpeg, emit
`{25 + floor((i / n) * 40), processing}`. -/
def procLoop (env : ExportEnv) (r : ℚ) (n : Nat) : List ExportClip → Nat → ProcOut
  | [], _ => ⟨[], [], [], true⟩
  | clip :: rest, i =>
    let gainsHere : List (ℚ × ℚ) :=
      match clip.audioUrl with
      | some _ => [(toFixed2 (max 0 (1 - r)), toFixed2 (max 0 r))]
      | none => []
    if env.processOk i then
      let out := procLoop env r n rest (i + 1)
      ⟨⟨25 + i * 40 / n, "processing"⟩ :: out.events,
       processedFileName i :: out.files, gainsHere ++ out.gains, out.ok⟩
    else ⟨[], [], gainsHere, false⟩

/-- `exportData.subtitles?.enabled && exportData.subtitles?.words?.length`:
whether `subtitles.srt` is written. -/
def subtitlesWanted (d : ExportRequest) : Bool :=
  match d.subtitles with
  | some sc => sc.enabled && (match sc.words with
      | some ws => ! ws.isEmpty
      | none => false)
  | none => false

/-- `subtitlePath && exportData.subtitles?.style`: whether the burn-in
ffmpeg pass runs (otherwise the stream-copy pass runs). -/
def burnWanted (d : ExportRequest) : Bool :=
  subtitlesWanted d && (match d.subtitles with
    | some sc => sc.style.isSome
    | none => false)

/-- A run that ends in the `catch` block: it emits `export:failed` and
performs no cleanup. -/
def mkFailedRun (evs : List ProgressEvent) (files : List String)
    (gs : List (ℚ × ℚ)) : ExportRun :=
  ⟨evs, files, [], gs, false, true⟩

/-- The whole non-mock export run (route lines 207-440): download,
process, concatenate, burn or copy, upload, then — only on the success
path — the cleanup block; the `catch` block only emits `export:failed`. -/
def runExport (env : ExportEnv) (d : ExportRequest) : ExportRun :=
  let n := d.clips.length
  let ev0 : List ProgressEvent := [⟨5, "downloading"⟩]
  let dl := dlLoop env n d.clips 0
  if dl.ok then
    let ev1 := ev0 ++ dl.events ++ [⟨25, "processing"⟩]
    let pr := procLoop env d.audioMix n d.clips 0
    let created₁ := dl.files ++ pr.files
    if pr.ok then
      let ev2 := ev1 ++ pr.events ++ [⟨70, "encoding"⟩]
      let subFiles : List String := if subtitlesWanted d then ["subtitles.srt"] else []
      let created₂ := created₁ ++ subFiles ++ ["concat.txt"]
      if env.concatOk then
        let created₃ := created₂ ++ ["concat_output.mp4"]
        let ev3 := ev2 ++ [⟨85, "encoding"⟩]
        if (if burnWanted d then env.burnOk else env.copyOk) then
          let created₄ := created₃ ++ ["output.mp4"]
          let ev4 := ev3 ++ [⟨92, "uploading"⟩]
          if env.uploadOk then
            { events := ev4 ++ [⟨100, "completed"⟩]
              created := created₄
              removed := dl.files ++ pr.files ++ ["concat.txt", "concat_output.mp4", "output.mp4"] ++ subFiles
              gains := pr.gains
              success := true
              failedEmitted := false }
          else mkFailedRun ev4 created₄ pr.gains
        else mkFailedRun ev3 created₃ pr.gains
      else mkFailedRun ev2 created₂ pr.gains
    else mkFailedRun (ev1 ++ pr.events) created₁ pr.gains
  else mkFailedRun (ev0 ++ dl.events) dl.files []

/-- Collapse consecutive duplicates, to read off the sequence of distinct
stage labels from a progress-event trace. -/
def collapseRuns : List String → List String
  | [] => []
  | [x] => [x]
  | x :: y :: rest =>
    if x = y then collapseRuns (y :: rest) else x :: collapseRuns (y :: rest)

/-- The distinct stage labels of a run, in emission order. -/
def stageLabels (r : ExportRun) : List String :=
  collapseRuns (r.events.map (fun e => e.status))

/-!
Predicates used by the claims, and concrete inputs for counterexamples
and witnesses.
-/

/-- The stored `duration` agrees with `calculateDuration` recomputed from
scratch. -/
abbrev durationInvariant (s : EditorState) : Prop :=
  s.duration = calculateDuration s.tracks

/-- The two reducer cases that change `tracks` without re-running
`calculateDuration`. -/
def skipsDurationRecompute : EditorAction → Bool
  | .addTrack _ => true
  | .removeTrack _ => true
  | _ => false

/-- Whether dispatching `a` on `s` goes through `saveToHistory`: the eleven
history-tracked operations, except that `PASTE_CLIP` returns early (before
`saveToHistory`) when the clipboard is empty. -/
def pushesHistory (s : EditorState) : EditorAction → Bool
  | .addClip _ _ => true
  | .removeClip _ => true
  | .moveClip _ _ _ => true
  | .trimClip _ _ _ => true
  | .splitClip _ _ => true
  | .pasteClip _ _ => s.clipboard.isSome
  | .addTrack _ => true
  | .removeTrack _ => true
  | .addSubtitle _ => true
  | .updateSubtitle _ _ => true
  | .removeSubtitle _ => true
  | _ => false

/-- Degenerate parameters under which a history-tracked operation leaves
`tracks` and `subtitles` untouched: a `TRIM_CLIP`/`MOVE_CLIP`/`SPLIT_CLIP`
whose clip id exists on no track, or a `SPLIT_CLIP` whose split point falls
at or beyond either clip edge. -/
def degenerateEdit (s : EditorState) : EditorAction → Bool
  | .trimClip cid _ _ => (findClip s.tracks cid).isNone
  | .moveClip cid _ _ => (findClip s.tracks cid).isNone
  | .splitClip cid sp =>
    match findClip s.tracks cid with
    | none => true
    | some loc =>
      decide (sp - loc.clip.startTime ≤ 0 ∨ loc.clip.duration ≤ sp - loc.clip.startTime)
  | _ => false

/-- The clip list of the track at index `i` (empty when out of range). -/
def clipsAt (s : EditorState) (i : Nat) : List TimelineClip :=
  match s.tracks.get? i with
  | some t => t.clips
  | none => []

/-- A 10-second video clip starting at 0. -/
def c1Clip : TimelineClip := ⟨"c1", "s1", "u1", 0, 10, 0, 0, .video⟩

def c1Mid : EditorState := editorReducer "fresh-a" initialState (.addClip "video-track-1" c1Clip)

/-- `c1Mid` after removing the track that holds its only clip. -/
def c1End : EditorState := editorReducer "fresh-b" c1Mid (.removeTrack "video-track-1")

/-- A track that already carries a clip ending at 7. -/
def c1TrackWithClip : TimelineTrack :=
  ⟨"t-extra", "Extra", .video, [⟨"cx", "sx", "ux", 0, 7, 0, 0, .video⟩], none, none, none, none⟩

def c1AddEnd : EditorState := editorReducer "fresh-e" initialState (.addTrack c1TrackWithClip)

/-- A state with an empty clipboard and one (different) history snapshot. -/
def c2CexState : EditorState := { initialState with history := ⟨[⟨[], []⟩], []⟩ }

def c2AfterPaste : EditorState := editorReducer "fresh-c" c2CexState (.pasteClip "video-track-1" 0)

def c2AfterUndo : EditorState := editorReducer "fresh-d" c2AfterPaste .undo

/-- A fresh empty track for the C2 witness. -/
def c2WitnessTrack : TimelineTrack := ⟨"t-new", "Track", .video, [], none, none, none, none⟩

def c3Clip : TimelineClip := ⟨"c3", "s3", "u3", 2, 10, 1, 1, .video⟩

def c3Track : TimelineTrack := ⟨"video-track-1", "Video 1", .video, [c3Clip], none, none, some false, some true⟩

def c3State : EditorState := { initialState with tracks := [c3Track], duration := 12 }

def c4Clip : TimelineClip := ⟨"c4", "s4", "u4", 0, 10, 2, 3, .video⟩

def c4Track : TimelineTrack := ⟨"video-track-1", "Video 1", .video, [c4Clip], none, none, some false, some true⟩

def c4State : EditorState := { initialState with tracks := [c4Track], duration := 10 }

def c5Clip : TimelineClip := ⟨"c5", "s5", "u5", 5, 3, 0, 0, .video⟩

def c5Track : TimelineTrack := ⟨"video-track-1", "Video 1", .video, [c5Clip], none, none, some false, some true⟩

def c5AudioTrack : TimelineTrack := ⟨"audio-track-1", "Audio 1", .audio, [], none, some 1, some false, some true⟩

def c5State : EditorState := { initialState with tracks := [c5Track, c5AudioTrack], duration := 8 }

def c9Clip : TimelineClip := ⟨"c9", "s9", "u9", 0, 10, 0, 0, .video⟩

def c9s1 : EditorState := editorReducer "f9a" initialState (.addClip "video-track-1" c9Clip)

def c9s2 : EditorState := editorReducer "f9b" c9s1 (.setPlayhead 10)

/-- Playhead 10 left in place while the only clip is removed. -/
def c9s3 : EditorState := editorReducer "f9c" c9s2 (.removeClip "c9")

/-- An environment where every external effect succeeds. -/
def allOkEnv : ExportEnv := ⟨fun _ => true, fun _ => true, fun _ => true, true, true, true, true⟩

/-- Clip A and clip B, both with narration; the narration download of
clip B (index 1) fails. -/
def c6Env : ExportEnv := ⟨fun _ => true, fun i => ! (i == 1), fun _ => true, true, true, true, true⟩

def c6Req : ExportRequest :=
  ⟨[⟨"A", "va", some "na", 0, 5, 0, 0⟩, ⟨"B", "vb", some "nb", 5, 5, 0, 0⟩], none, 4 / 5⟩

/-- A single narration-free clip, subtitles disabled. -/
def c7Req : ExportRequest := ⟨[⟨"l1", "v1", none, 0, 5, 0, 0⟩], none, 4 / 5⟩

/-- A single clip with narration, audio mix 0.8. -/
def c8Req : ExportRequest := ⟨[⟨"l8", "v8", some "a8", 0, 5, 0, 0⟩], none, 4 / 5⟩

/-- A single clip with narration, audio mix 0.125 (exactly representable in
a JavaScript number, so the rational model agrees with the source). -/
def c8CexReq : ExportRequest := ⟨[⟨"l8", "v8", some "a8", 0, 5, 0, 0⟩], none, 1 / 8⟩

/-!
Part 3: lemmas and the claim theorems.
-/

@[simp] lemma saveToHistory_tracks (s : EditorState) : (saveToHistory s).tracks = s.tracks := rfl

@[simp] lemma saveToHistory_subtitles (s : EditorState) :
    (saveToHistory s).subtitles = s.subtitles := rfl

@[simp] lemma saveToHistory_duration (s : EditorState) :
    (saveToHistory s).duration = s.duration := rfl

@[simp] lemma saveToHistory_past (s : EditorState) :
    (saveToHistory s).history.past = pushLimit s.history.past (mkSnapshot s) := rfl

@[simp] lemma saveToHistory_future (s : EditorState) :
    (saveToHistory s).history.future = [] := rfl

lemma getLast?_append_singleton (l : List α) (x : α) : (l ++ [x]).getLast? = some x :=
  List.getLast?_append_cons l x []

lemma pushLimit_getLast? (p : List EditorSnapshot) (x : EditorSnapshot) :
    (pushLimit p x).getLast? = some x := by
  unfold pushLimit
  split
  · rename_i h
    cases p with
    | nil => simp at h
    | cons a as =>
      have ht : ((a :: as) ++ [x]).tail = as ++ [x] := rfl
      rw [ht, getLast?_append_singleton]
  · exact getLast?_append_singleton p x

/-- Every operation that goes through `saveToHistory` ends up with exactly
the pushed history: the pre-operation snapshot appended to `past` (capped
at 50) and an empty `future`. -/
lemma reducer_history_of_pushes (fid : String) (s : EditorState) (a : EditorAction)
    (h : pushesHistory s a = true) :
    (editorReducer fid s a).history = ⟨pushLimit s.history.past (mkSnapshot s), []⟩ := by
  cases a <;> simp only [pushesHistory] at h <;>
    simp only [editorReducer] <;>
    (repeat' split) <;>
    first
      | rfl
      | simp_all

/-- Undoing from a state whose history is exactly a freshly pushed snapshot
restores that snapshot, and redoing immediately afterwards restores the
state before the undo. -/
lemma undo_redo_core (fid fid' : String) (s s1 : EditorState)
    (hp : s1.history.past = pushLimit s.history.past (mkSnapshot s))
    (hf : s1.history.future = []) :
    (editorReducer fid s1 .undo).tracks = s.tracks ∧
    (editorReducer fid s1 .undo).subtitles = s.subtitles ∧
    (editorReducer fid' (editorReducer fid s1 .undo) .redo).tracks = s1.tracks ∧
    (editorReducer fid' (editorReducer fid s1 .undo) .redo).subtitles = s1.subtitles := by
  have hlast : s1.history.past.getLast? = some (mkSnapshot s) := by
    rw [hp]; exact pushLimit_getLast? _ _
  simp only [editorReducer, hlast, hf]
  exact ⟨rfl, rfl, rfl, rfl⟩

/-- C2: for every state and every history-tracked mutating operation that
actually pushes a snapshot, applying the operation and then UNDO restores
the pre-operation `{tracks, subtitles}`, and a REDO right after that UNDO
restores the post-operation `{tracks, subtitles}`.  (Amended: `PASTE_CLIP`
with an empty clipboard returns before `saveToHistory` and is excluded.) -/
theorem undo_redo_roundtrip (fid₁ fid₂ fid₃ : String) (s : EditorState) (a : EditorAction)
    (h : pushesHistory s a = true) :
    (editorReducer fid₂ (editorReducer fid₁ s a) .undo).tracks = s.tracks ∧
    (editorReducer fid₂ (editorReducer fid₁ s a) .undo).subtitles = s.subtitles ∧
    (editorReducer fid₃ (editorReducer fid₂ (editorReducer fid₁ s a) .undo) .redo).tracks
      = (editorReducer fid₁ s a).tracks ∧
    (editorReducer fid₃ (editorReducer fid₂ (editorReducer fid₁ s a) .undo) .redo).subtitles
      = (editorReducer fid₁ s a).subtitles := by
  have hh := reducer_history_of_pushes fid₁ s a h
  exact undo_redo_core fid₂ fid₃ s (editorReducer fid₁ s a)
    (by rw [hh]) (by rw [hh])

/-- Witness for C2 at a concrete input: add a track to the initial state,
then undo and redo. -/
theorem undo_redo_roundtrip_witness :
    (editorReducer "w2" (editorReducer "w1" initialState (.addTrack c2WitnessTrack)) .undo).tracks
      = initialState.tracks ∧
    (editorReducer "w2" (editorReducer "w1" initialState (.addTrack c2WitnessTrack)) .undo).subtitles
      = initialState.subtitles ∧
    (editorReducer "w3" (editorReducer "w2" (editorReducer "w1" initialState (.addTrack c2WitnessTrack)) .undo) .redo).tracks
      = (editorReducer "w1" initialState (.addTrack c2WitnessTrack)).tracks ∧
    (editorReducer "w3" (editorReducer "w2" (editorReducer "w1" initialState (.addTrack c2WitnessTrack)) .undo) .redo).subtitles
      = (editorReducer "w1" initialState (.addTrack c2WitnessTrack)).subtitles :=
  undo_redo_roundtrip "w1" "w2" "w3" initialState (.addTrack c2WitnessTrack) (by decide)

/-- C2 counterexample: `PASTE_CLIP` with an empty clipboard is named among
the history-tracked operations by the claim, but it pushes nothing, so the
UNDO that follows it restores an older snapshot, not the pre-operation
state. -/
theorem pasteClip_skips_history_cex :
    c2AfterPaste = c2CexState ∧ c2AfterUndo.tracks ≠ c2CexState.tracks := by
  constructor
  · rfl
  · decide

/-- C10: a degenerate `TRIM_CLIP`/`MOVE_CLIP`/`SPLIT_CLIP` (unknown clip id,
or a split point at or beyond a clip edge) changes no content, yet still
pushes the pre-operation snapshot onto `past` and discards the whole redo
stack (`future` becomes empty). -/
theorem degenerate_edit_pushes_history (fid : String) (s : EditorState) (a : EditorAction)
    (h : degenerateEdit s a = true) :
    (editorReducer fid s a).tracks = s.tracks ∧
    (editorReducer fid s a).subtitles = s.subtitles ∧
    (editorReducer fid s a).history.future = [] ∧
    (editorReducer fid s a).history.past = pushLimit s.history.past (mkSnapshot s) := by
  cases a <;> simp only [degenerateEdit, Bool.false_eq_true] at h
  case trimClip cid ts te =>
    rw [Option.isNone_iff_eq_none] at h
    simp only [editorReducer, saveToHistory_tracks, h]
    simp
  case moveClip cid nst ntid =>
    rw [Option.isNone_iff_eq_none] at h
    simp only [editorReducer, saveToHistory_tracks, h]
    simp
  case splitClip cid sp =>
    rcases hfc : findClip s.tracks cid with _ | loc
    · simp only [editorReducer, saveToHistory_tracks, hfc]
      simp
    · rw [hfc] at h
      simp only [decide_eq_true_eq] at h
      simp only [editorReducer, saveToHistory_tracks, hfc]
      rw [if_pos h]
      simp

lemma insertAt_zero (a : α) (l : List α) : insertAt a 0 l = a :: l := by
  cases l <;> rfl

lemma trackMaxEnd_eq_foldMax (acc : ℚ) (t : TimelineTrack) :
    trackMaxEnd acc t = t.clips.foldl (fun m c => max m (clipEnd c)) acc := by
  unfold trackMaxEnd
  congr 1
  funext m c
  split
  · exact (max_eq_right (le_of_lt (by assumption))).symm
  · exact (max_eq_left (le_of_not_lt (by assumption))).symm

lemma foldl_maxEnd_congr (l l' : List TimelineTrack)
    (h : l.map TimelineTrack.clips = l'.map TimelineTrack.clips) :
    ∀ acc, l.foldl trackMaxEnd acc = l'.foldl trackMaxEnd acc := by
  induction l generalizing l' with
  | nil =>
    cases l' with
    | nil => intro _; rfl
    | cons t' ts' => simp at h
  | cons t ts ih =>
    cases l' with
    | nil => simp at h
    | cons t' ts' =>
      simp only [List.map_cons, List.cons.injEq] at h
      intro acc
      simp only [List.foldl_cons]
      have hstep : trackMaxEnd acc t = trackMaxEnd acc t' := by
        unfold trackMaxEnd; rw [h.1]
      rw [hstep]
      exact ih ts' h.2 _

lemma calculateDuration_congr (l l' : List TimelineTrack)
    (h : l.map TimelineTrack.clips = l'.map TimelineTrack.clips) :
    calculateDuration l = calculateDuration l' :=
  foldl_maxEnd_congr l l' h 0

lemma modifyFirstTrackById_map_clips (tid : String) (f : TimelineTrack → TimelineTrack)
    (hf : ∀ t, (f t).clips = t.clips) :
    ∀ l : List TimelineTrack,
      (modifyFirstTrackById tid f l).map TimelineTrack.clips = l.map TimelineTrack.clips := by
  intro l
  induction l with
  | nil => rfl
  | cons t ts ih =>
    simp only [modifyFirstTrackById]
    split
    · simp [hf t]
    · simp [ih]

/-- Track-flag mutations (mute/lock/visibility/volume) leave
`calculateDuration` unchanged, since it only reads clip lists. -/
lemma durationInvariant_modifyFirst (s : EditorState) (tid : String)
    (f : TimelineTrack → TimelineTrack) (hf : ∀ t, (f t).clips = t.clips)
    (hinv : durationInvariant s) :
    s.duration = calculateDuration (modifyFirstTrackById tid f s.tracks) :=
  hinv.trans (calculateDuration_congr _ _ (modifyFirstTrackById_map_clips tid f hf s.tracks)).symm

lemma findClipInClips_spec (cid : String) (cs : List TimelineClip) :
    ∀ (j0 j : Nat) (c : TimelineClip), findClipInClips cid j0 cs = some (j, c) →
      j0 ≤ j ∧ cs.get? (j - j0) = some c := by
  induction cs with
  | nil => intro j0 j c h; exact absurd h (by simp [findClipInClips])
  | cons x xs ih =>
    intro j0 j c h
    simp only [findClipInClips] at h
    by_cases hx : x.id = cid
    · rw [if_pos hx] at h
      obtain ⟨rfl, rfl⟩ : j0 = j ∧ x = c := by
        have := Option.some.inj h
        exact ⟨congrArg Prod.fst this, congrArg Prod.snd this⟩
      exact ⟨le_refl _, by simp⟩
    · rw [if_neg hx] at h
      obtain ⟨hle, hget⟩ := ih (j0 + 1) j c h
      refine ⟨by omega, ?_⟩
      have hj : j - j0 = (j - (j0 + 1)) + 1 := by omega
      rw [hj]
      simpa using hget

lemma findClipAux_spec (cid : String) (ts : List TimelineTrack) :
    ∀ (i0 : Nat) (loc : ClipLoc), findClipAux cid i0 ts = some loc →
      i0 ≤ loc.trackIdx ∧ ts.get? (loc.trackIdx - i0) = some loc.track ∧
        findClipInClips cid 0 loc.track.clips = some (loc.clipIdx, loc.clip) := by
  induction ts with
  | nil => intro i0 loc h; exact absurd h (by simp [findClipAux])
  | cons t ts ih =>
    intro i0 loc h
    simp only [findClipAux] at h
    rcases hf : findClipInClips cid 0 t.clips with _ | ⟨j, c⟩
    · rw [hf] at h
      obtain ⟨hle, hget, hinner⟩ := ih (i0 + 1) loc h
      refine ⟨by omega, ?_, hinner⟩
      have hi : loc.trackIdx - i0 = (loc.trackIdx - (i0 + 1)) + 1 := by omega
      rw [hi]
      simpa using hget
    · rw [hf] at h
      cases h
      exact ⟨le_refl _, by simp, hf⟩

/-- What a successful `findClip` guarantees: the located track really is at
`trackIdx` and the located clip really is at `clipIdx` inside it. -/
lemma findClip_spec (tracks : List TimelineTrack) (cid : String) (loc : ClipLoc)
    (h : findClip tracks cid = some loc) :
    tracks.get? loc.trackIdx = some loc.track ∧
      loc.track.clips.get? loc.clipIdx = some loc.clip := by
  obtain ⟨-, hget, hinner⟩ := findClipAux_spec cid tracks 0 loc h
  obtain ⟨-, hclip⟩ := findClipInClips_spec cid loc.track.clips 0 loc.clipIdx loc.clip hinner
  exact ⟨by simpa using hget, by simpa using hclip⟩

/-- Replacing the clip at `j` by `c1` and inserting `c2` right after it does
not change the running max of clip ends, provided `c1` ends no later than
the original and `c2` ends exactly where the original did. -/
lemma foldMax_splice (cs : List TimelineClip) :
    ∀ (j : Nat) (c c1 c2 : TimelineClip), cs.get? j = some c →
      clipEnd c1 ≤ clipEnd c → clipEnd c2 = clipEnd c →
      ∀ acc : ℚ,
        (insertAt c2 (j + 1) (setAt c1 j cs)).foldl (fun m x => max m (clipEnd x)) acc
          = cs.foldl (fun m x => max m (clipEnd x)) acc := by
  induction cs with
  | nil => intro j c c1 c2 hc; simp at hc
  | cons x xs ih =>
    intro j c c1 c2 hc h1 h2 acc
    cases j with
    | zero =>
      obtain rfl : x = c := by simpa using hc
      simp only [setAt, insertAt, insertAt_zero, List.foldl_cons]
      have hacc : max (max acc (clipEnd c1)) (clipEnd c2) = max acc (clipEnd x) := by
        rw [max_assoc, h2]
        congr 1
        exact max_eq_right (h2 ▸ h1)
      rw [hacc]
    | succ n =>
      have hx : xs.get? n = some c := by simpa using hc
      simp only [setAt, insertAt, List.foldl_cons]
      exact ih n c c1 c2 hx h1 h2 _

lemma foldl_modifyAt_congr (g : TimelineTrack → TimelineTrack) (l : List TimelineTrack) :
    ∀ i : Nat, (∀ t, l.get? i = some t → ∀ acc, trackMaxEnd acc (g t) = trackMaxEnd acc t) →
      ∀ acc, (modifyAt g i l).foldl trackMaxEnd acc = l.foldl trackMaxEnd acc := by
  induction l with
  | nil => intro i _ acc; cases i <;> rfl
  | cons t ts ih =>
    intro i h acc
    cases i with
    | zero =>
      simp only [modifyAt, List.foldl_cons]
      rw [h t rfl acc]
    | succ n =>
      simp only [modifyAt, List.foldl_cons]
      exact ih n (fun t' ht' acc' => h t' (by simpa using ht') acc') _

/-- The `SPLIT_CLIP` clip-list surgery leaves `calculateDuration` unchanged. -/
lemma calculateDuration_splice (tracks : List TimelineTrack) (i j : Nat) (t : TimelineTrack)
    (c c1 c2 : TimelineClip) (ht : tracks.get? i = some t) (hc : t.clips.get? j = some c)
    (h1 : clipEnd c1 ≤ clipEnd c) (h2 : clipEnd c2 = clipEnd c) :
    calculateDuration
      (modifyAt (fun tr => { tr with clips := insertAt c2 (j + 1) (setAt c1 j tr.clips) }) i tracks)
      = calculateDuration tracks := by
  unfold calculateDuration
  apply foldl_modifyAt_congr
  intro t' ht' acc
  obtain rfl : t' = t := by rw [ht] at ht'; exact (Option.some.inj ht').symm
  rw [trackMaxEnd_eq_foldMax, trackMaxEnd_eq_foldMax]
  exact foldMax_splice t'.clips j c c1 c2 hc h1 h2 acc

/-- C1 counterexample: `REMOVE_TRACK` (and `ADD_TRACK` of a clip-carrying
track) leave `duration` stale: after removing the track that holds the only
clip, `duration` stays 10 while `calculateDuration` gives 0. -/
theorem duration_stale_track_ops_cex :
    ¬ durationInvariant c1End ∧ ¬ durationInvariant c1AddEnd := by
  constructor <;>
    simp [durationInvariant, c1End, c1Mid, c1AddEnd, c1Clip, c1TrackWithClip, initialState,
      editorReducer, saveToHistory, mkSnapshot, pushLimit, findTrack, findTrackAux, modifyAt,
      stableSortByKey, insertByKey, calculateDuration, trackMaxEnd, clipEnd]

/-- C1 amended: every reducer action other than `ADD_TRACK` and
`REMOVE_TRACK` preserves `duration = calculateDuration(tracks)` (those two
mutate `tracks` without recomputing `duration`). -/
theorem duration_invariant_preserved (fid : String) (s : EditorState) (a : EditorAction)
    (hinv : durationInvariant s) (ha : skipsDurationRecompute a = false) :
    durationInvariant (editorReducer fid s a) := by
  cases a
  case addTrack t => simp [skipsDurationRecompute] at ha
  case removeTrack tid => simp [skipsDurationRecompute] at ha
  case toggleTrackMute tid =>
    exact durationInvariant_modifyFirst s tid _ (fun t => rfl) hinv
  case toggleTrackLock tid =>
    exact durationInvariant_modifyFirst s tid _ (fun t => rfl) hinv
  case toggleTrackVisibility tid =>
    exact durationInvariant_modifyFirst s tid _ (fun t => rfl) hinv
  case setTrackVolume tid v =>
    exact durationInvariant_modifyFirst s tid _ (fun t => rfl) hinv
  case reset => rfl
  case splitClip cid sp =>
    simp only [editorReducer, saveToHistory_tracks]
    split
    · exact hinv
    · rename_i loc heq
      split
      · exact hinv
      · rename_i hcond
        push_neg at hcond
        obtain ⟨hpos, hlt⟩ := hcond
        obtain ⟨ht, hc⟩ := findClip_spec s.tracks cid loc heq
        show s.duration = _
        rw [hinv]
        refine (calculateDuration_splice s.tracks loc.trackIdx loc.clipIdx loc.track loc.clip
          _ _ ht hc ?_ ?_).symm
        · show loc.clip.startTime + (sp - loc.clip.startTime) ≤ clipEnd loc.clip
          unfold clipEnd
          linarith
        · show sp + (loc.clip.duration - (sp - loc.clip.startTime)) = clipEnd loc.clip
          unfold clipEnd
          ring
  all_goals
    simp only [editorReducer] <;> (repeat' split) <;> first | exact rfl | exact hinv

/-- Witness for C1 at a concrete input: removing an unknown clip id from the
initial state keeps the invariant. -/
theorem duration_invariant_preserved_witness :
    durationInvariant (editorReducer "wc1" initialState (.removeClip "nope")) :=
  duration_invariant_preserved "wc1" initialState (.removeClip "nope") (by rfl) (by decide)

lemma modifyAt_get?_self (f : α → α) (l : List α) :
    ∀ i, (modifyAt f i l).get? i = (l.get? i).map f := by
  induction l with
  | nil => intro i; cases i <;> rfl
  | cons x xs ih =>
    intro i
    cases i with
    | zero => rfl
    | succ n =>
      simp only [modifyAt, List.get?_cons_succ]
      exact ih n

lemma insertAt_setAt_eq_splice (c1 c2 : α) (cs : List α) :
    ∀ j, j < cs.length →
      insertAt c2 (j + 1) (setAt c1 j cs) = cs.take j ++ [c1, c2] ++ cs.drop (j + 1) := by
  induction cs with
  | nil => intro j h; simp at h
  | cons x xs ih =>
    intro j h
    cases j with
    | zero => simp [setAt, insertAt, insertAt_zero]
    | succ n =>
      have h' : n < xs.length := by simpa using h
      simp only [setAt, insertAt, List.take_succ_cons, List.drop_succ_cons, List.cons_append]
      rw [ih n h']

lemma get?_splice (pre : List α) (a b : α) (post : List α) (j : Nat) (hj : pre.length = j) :
    (pre ++ [a, b] ++ post).get? j = some a ∧
      (pre ++ [a, b] ++ post).get? (j + 1) = some b := by
  subst hj
  induction pre with
  | nil => exact ⟨rfl, rfl⟩
  | cons x xs ih =>
    simp only [List.cons_append, List.length_cons, List.get?_cons_succ]
    exact ih

/-- What `SPLIT_CLIP` does to the clip list of the affected track when the
split point is strictly inside the clip. -/
lemma splitClip_clips (fid : String) (s : EditorState) (cid : String) (sp : ℚ) (loc : ClipLoc)
    (hfind : findClip s.tracks cid = some loc)
    (h1 : 0 < sp - loc.clip.startTime) (h2 : sp - loc.clip.startTime < loc.clip.duration) :
    clipsAt (editorReducer fid s (.splitClip cid sp)) loc.trackIdx
      = loc.track.clips.take loc.clipIdx
        ++ [{ loc.clip with
                duration := sp - loc.clip.startTime
                trimEnd := loc.clip.trimEnd + (sp - loc.clip.startTime - (sp - loc.clip.startTime)) },
            { loc.clip with
                id := fid
                startTime := sp
                duration := loc.clip.duration - (sp - loc.clip.startTime)
                trimStart := loc.clip.trimStart + (sp - loc.clip.startTime) }]
        ++ loc.track.clips.drop (loc.clipIdx + 1) := by
  have hcond : ¬ (sp - loc.clip.startTime ≤ 0 ∨ loc.clip.duration ≤ sp - loc.clip.startTime) := by
    push_neg
    exact ⟨h1, h2⟩
  obtain ⟨ht, hc⟩ := findClip_spec s.tracks cid loc hfind
  obtain ⟨hlen, -⟩ := List.get?_eq_some.mp hc
  unfold clipsAt
  simp only [editorReducer, saveToHistory_tracks, hfind]
  rw [if_neg hcond]
  rw [modifyAt_get?_self, ht]
  simp only [Option.map_some']
  rw [insertAt_setAt_eq_splice _ _ _ _ hlen]

/-- C3: splitting strictly inside a clip yields exactly two clips in place
of the original — their durations sum to the original duration, the second
starts at the split point (which equals the first clip's start plus its new
duration: no gap, no overlap), and the second clip's `trimStart` is the
original `trimStart` plus the first clip's new duration. -/
theorem splitClip_strict_interior (fid : String) (s : EditorState) (cid : String) (sp : ℚ)
    (loc : ClipLoc) (c1 c2 : TimelineClip)
    (hfind : findClip s.tracks cid = some loc)
    (h1 : 0 < sp - loc.clip.startTime) (h2 : sp - loc.clip.startTime < loc.clip.duration)
    (hc1 : (clipsAt (editorReducer fid s (.splitClip cid sp)) loc.trackIdx).get? loc.clipIdx
      = some c1)
    (hc2 : (clipsAt (editorReducer fid s (.splitClip cid sp)) loc.trackIdx).get? (loc.clipIdx + 1)
      = some c2) :
    (clipsAt (editorReducer fid s (.splitClip cid sp)) loc.trackIdx).length
      = loc.track.clips.length + 1 ∧
    c1.duration + c2.duration = loc.clip.duration ∧
    c1.startTime = loc.clip.startTime ∧
    c2.startTime = sp ∧
    c2.startTime = c1.startTime + c1.duration ∧
    c2.trimStart = loc.clip.trimStart + c1.duration := by
  obtain ⟨ht, hc⟩ := findClip_spec s.tracks cid loc hfind
  obtain ⟨hlen, -⟩ := List.get?_eq_some.mp hc
  have hsplit := splitClip_clips fid s cid sp loc hfind h1 h2
  have htake : (loc.track.clips.take loc.clipIdx).length = loc.clipIdx := by
    simp only [List.length_take]
    omega
  rw [hsplit] at hc1 hc2
  obtain ⟨e1, e2⟩ := get?_splice (loc.track.clips.take loc.clipIdx)
    { loc.clip with
      duration := sp - loc.clip.startTime
      trimEnd := loc.clip.trimEnd + (sp - loc.clip.startTime - (sp - loc.clip.startTime)) }
    { loc.clip with
      id := fid
      startTime := sp
      duration := loc.clip.duration - (sp - loc.clip.startTime)
      trimStart := loc.clip.trimStart + (sp - loc.clip.startTime) }
    (loc.track.clips.drop (loc.clipIdx + 1)) loc.clipIdx htake
  rw [e1] at hc1
  obtain rfl := (Option.some.inj hc1).symm
  rw [e2] at hc2
  obtain rfl := (Option.some.inj hc2).symm
  refine ⟨?_, by dsimp only <;> ring, rfl, rfl, by dsimp only <;> ring, by dsimp only <;> ring⟩
  rw [hsplit]
  simp only [List.length_append, List.length_take, List.length_cons, List.length_nil,
    List.length_drop]
  omega

/-- Witness for C3 at a concrete input: a clip at `[2, 12)` with
`trimStart = trimEnd = 1`, split at 5. -/
theorem splitClip_strict_interior_witness :
    (clipsAt (editorReducer "wc3" c3State (.splitClip "c3" 5)) 0).length
      = c3Track.clips.length + 1 ∧
    (⟨"c3", "s3", "u3", 2, 3, 1, 1, .video⟩ : TimelineClip).duration
        + (⟨"wc3", "s3", "u3", 5, 7, 4, 1, .video⟩ : TimelineClip).duration
      = c3Clip.duration ∧
    (⟨"c3", "s3", "u3", 2, 3, 1, 1, .video⟩ : TimelineClip).startTime = c3Clip.startTime ∧
    (⟨"wc3", "s3", "u3", 5, 7, 4, 1, .video⟩ : TimelineClip).startTime = 5 ∧
    (⟨"wc3", "s3", "u3", 5, 7, 4, 1, .video⟩ : TimelineClip).startTime
      = (⟨"c3", "s3", "u3", 2, 3, 1, 1, .video⟩ : TimelineClip).startTime
        + (⟨"c3", "s3", "u3", 2, 3, 1, 1, .video⟩ : TimelineClip).duration ∧
    (⟨"wc3", "s3", "u3", 5, 7, 4, 1, .video⟩ : TimelineClip).trimStart
      = c3Clip.trimStart + (⟨"c3", "s3", "u3", 2, 3, 1, 1, .video⟩ : TimelineClip).duration :=
  splitClip_strict_interior "wc3" c3State "c3" 5 ⟨0, c3Track, 0, c3Clip⟩
    ⟨"c3", "s3", "u3", 2, 3, 1, 1, .video⟩ ⟨"wc3", "s3", "u3", 5, 7, 4, 1, .video⟩
    (by rfl)
    (by norm_num [c3Clip])
    (by norm_num [c3Clip])
    (by norm_num [clipsAt, c3State, c3Track, c3Clip, initialState, editorReducer, saveToHistory,
      mkSnapshot, pushLimit, findClip, findClipAux, findClipInClips, modifyAt, setAt, insertAt])
    (by norm_num [clipsAt, c3State, c3Track, c3Clip, initialState, editorReducer, saveToHistory,
      mkSnapshot, pushLimit, findClip, findClipAux, findClipInClips, modifyAt, setAt, insertAt])

/-- C4 (code bug): after `SPLIT_CLIP` at 4 inside a clip with
`duration = 10`, `trimEnd = 3`, the first clip's `trimEnd` is still 3 —
the source assigns `clip.duration = splitPoint` *before* computing
`clip.trimEnd + (clip.duration - splitPoint)`, so it always adds zero
instead of the removed tail length `10 - 4 = 6`. -/
theorem splitClip_trimEnd_bug :
    (clipsAt (editorReducer "n4" c4State (.splitClip "c4" 4)) 0).map TimelineClip.trimEnd
      = [3, 3] ∧ (3 : ℚ) ≠ 3 + (10 - 4) := by
  constructor
  · norm_num [clipsAt, c4State, c4Track, c4Clip, initialState, editorReducer, saveToHistory,
      mkSnapshot, pushLimit, findClip, findClipAux, findClipInClips, modifyAt, setAt, insertAt,
      insertAt_zero]
  · norm_num

/-- C5 amended: `MOVE_CLIP` onto an existing track of a different kind is a
complete no-op on `tracks` — the clip is neither relocated nor repositioned
(its `startTime` is not set to `max 0 newStartTime`). -/
theorem moveClip_crossKind_noop (fid : String) (s : EditorState) (cid : String) (nst : ℚ)
    (tid : String) (loc : ClipLoc) (k : Nat) (target : TimelineTrack)
    (hfind : findClip s.tracks cid = some loc)
    (htid1 : tid ≠ "") (htid2 : tid ≠ loc.track.id)
    (htarget : findTrack s.tracks tid = some (k, target))
    (hkind : ¬ target.kind = loc.track.kind) :
    (editorReducer fid s (.moveClip cid nst (some tid))).tracks = s.tracks := by
  simp only [editorReducer, saveToHistory_tracks, hfind]
  rw [if_pos ⟨htid1, htid2⟩]
  simp only [htarget]
  rw [if_neg hkind]

/-- Witness for C5: moving the video clip of `c5State` onto the audio track. -/
theorem moveClip_crossKind_noop_witness :
    (editorReducer "w5" c5State (.moveClip "c5" 2 (some "audio-track-1"))).tracks
      = c5State.tracks :=
  moveClip_crossKind_noop "w5" c5State "c5" 2 "audio-track-1" ⟨0, c5Track, 0, c5Clip⟩
    1 c5AudioTrack (by rfl) (by decide) (by decide) (by rfl) (by decide)

/-- C5 counterexample: the claim says the cross-kind move degenerates to a
same-track reposition to `max 0 newStartTime = 2`; in fact the tracks are
completely unchanged and the clip still starts at 5. -/
theorem moveClip_crossKind_cex :
    (editorReducer "n5" c5State (.moveClip "c5" 2 (some "audio-track-1"))).tracks
      = c5State.tracks ∧
    (clipsAt (editorReducer "n5" c5State (.moveClip "c5" 2 (some "audio-track-1"))) 0).map
      TimelineClip.startTime = [5] ∧
    ((5 : ℚ) ≠ max 0 2) := by
  refine ⟨rfl, rfl, by norm_num⟩

/-- C9 amended: `0 ≤ playhead` is preserved by every reducer action, and
`SET_PLAYHEAD` itself clamps the playhead into `[0, duration]`; but content
operations that shrink `duration` do not re-clamp (see the counterexample). -/
theorem playhead_bounds (fid : String) (s : EditorState) (a : EditorAction) (t : ℚ)
    (h0 : 0 ≤ s.playhead) (hd : 0 ≤ s.duration) :
    0 ≤ (editorReducer fid s a).playhead ∧
    (editorReducer fid s (.setPlayhead t)).playhead
      ≤ (editorReducer fid s (.setPlayhead t)).duration := by
  constructor
  · cases a
    case setPlayhead t' => exact le_max_left 0 _
    case reset => exact le_refl 0
    all_goals
      simp only [editorReducer] <;> (repeat' split) <;> exact h0
  · exact max_le hd (min_le_right t s.duration)

/-- Witness for C9 at a concrete input. -/
theorem playhead_bounds_witness :
    0 ≤ (editorReducer "w9" initialState (.removeClip "c")).playhead ∧
    (editorReducer "w9" initialState (.setPlayhead 5)).playhead
      ≤ (editorReducer "w9" initialState (.setPlayhead 5)).duration :=
  playhead_bounds "w9" initialState (.removeClip "c") 5 (le_refl 0) (le_refl 0)

/-- C9 counterexample: `ADD_CLIP` (duration 10), `SET_PLAYHEAD 10`, then
`REMOVE_CLIP` leaves `playhead = 10 > 0 = duration`, so
`playhead ≤ duration` is not an invariant. -/
theorem playhead_exceeds_duration_cex : c9s3.duration < c9s3.playhead := by
  norm_num [c9s3, c9s2, c9s1, c9Clip, initialState, editorReducer, saveToHistory, mkSnapshot,
    pushLimit, findTrack, findTrackAux, findClip, findClipAux, findClipInClips, modifyAt,
    stableSortByKey, insertByKey, calculateDuration, trackMaxEnd, clipEnd,
    removeFirstClipTracks, removeClipFromClips, max_def, min_def]

/-- Witness for C10: trimming a clip id that exists on no track in the
initial state. -/
theorem degenerate_edit_witness :
    (editorReducer "w10" initialState (.trimClip "missing" 1 1)).tracks = initialState.tracks ∧
    (editorReducer "w10" initialState (.trimClip "missing" 1 1)).subtitles = initialState.subtitles ∧
    (editorReducer "w10" initialState (.trimClip "missing" 1 1)).history.future = [] ∧
    (editorReducer "w10" initialState (.trimClip "missing" 1 1)).history.past
      = pushLimit initialState.history.past (mkSnapshot initialState) :=
  degenerate_edit_pushes_history "w10" initialState (.trimClip "missing" 1 1) (by decide)

lemma dlLoop_status (env : ExportEnv) (n : Nat) :
    ∀ (clips : List ExportClip) (i : Nat) (e : ProgressEvent),
      e ∈ (dlLoop env n clips i).events → e.status = "downloading" := by
  intro clips
  induction clips with
  | nil => intro i e he; simp [dlLoop] at he
  | cons clip rest ih =>
    intro i e he
    simp only [dlLoop] at he
    by_cases hv : env.videoDlOk i
    · rw [if_pos hv] at he
      cases hau : clip.audioUrl with
      | some u =>
        rw [hau] at he
        by_cases ha : env.audioDlOk i
        · rw [if_pos ha] at he
          rcases List.mem_cons.mp he with rfl | hmem
          · rfl
          · exact ih (i + 1) e hmem
        · rw [if_neg ha] at he
          simp at he
      | none =>
        rw [hau] at he
        rcases List.mem_cons.mp he with rfl | hmem
        · rfl
        · exact ih (i + 1) e hmem
    · rw [if_neg hv] at he
      simp at he

lemma procLoop_status (env : ExportEnv) (r : ℚ) (n : Nat) :
    ∀ (clips : List ExportClip) (i : Nat) (e : ProgressEvent),
      e ∈ (procLoop env r n clips i).events → e.status = "processing" := by
  intro clips
  induction clips with
  | nil => intro i e he; simp [procLoop] at he
  | cons clip rest ih =>
    intro i e he
    simp only [procLoop] at he
    by_cases hp : env.processOk i
    · rw [if_pos hp] at he
      rcases List.mem_cons.mp he with rfl | hmem
      · rfl
      · exact ih (i + 1) e hmem
    · rw [if_neg hp] at he
      simp at he

lemma procLoop_gains (env : ExportEnv) (r : ℚ) (n : Nat) :
    ∀ (clips : List ExportClip) (i : Nat) (g : ℚ × ℚ),
      g ∈ (procLoop env r n clips i).gains →
        g = (toFixed2 (max 0 (1 - r)), toFixed2 (max 0 r)) := by
  intro clips
  induction clips with
  | nil => intro i g hg; simp [procLoop] at hg
  | cons clip rest ih =>
    intro i g hg
    simp only [procLoop] at hg
    by_cases hp : env.processOk i
    · rw [if_pos hp] at hg
      rcases List.mem_append.mp hg with hmem | hmem
      · cases hau : clip.audioUrl with
        | some u => rw [hau] at hmem; simpa using hmem
        | none => rw [hau] at hmem; simp at hmem
      · exact ih (i + 1) g hmem
    · rw [if_neg hp] at hg
      cases hau : clip.audioUrl with
      | some u => rw [hau] at hg; simpa using hg
      | none => rw [hau] at hg; simp at hg

lemma collapseRuns_cons_cons_self (x : String) (l : List String) :
    collapseRuns (x :: x :: l) = collapseRuns (x :: l) := by
  simp [collapseRuns]

lemma collapseRuns_cons_cons_ne (x y : String) (l : List String) (h : ¬ x = y) :
    collapseRuns (x :: y :: l) = x :: collapseRuns (y :: l) := by
  simp [collapseRuns, h]

/-- A run of labels equal to the head collapses away. -/
lemma collapseRuns_absorb (x : String) (l rest : List String) (h : ∀ y ∈ l, y = x) :
    collapseRuns (x :: (l ++ rest)) = collapseRuns (x :: rest) := by
  induction l with
  | nil => rfl
  | cons y ys ih =>
    have hy : y = x := h y (by simp)
    subst hy
    rw [List.cons_append, collapseRuns_cons_cons_self]
    exact ih (fun z hz => h z (by simp [hz]))

/-- C7 amended: a successful non-mock export emits its stage labels in the
order downloading → processing → encoding → uploading → completed (the code
labels both the concatenation pass and the subtitle-burn/copy pass
`encoding`, and never emits a `concatenating` label); every failing run
emits `export:failed`. -/
theorem export_stage_order (env : ExportEnv) (d : ExportRequest) :
    ((runExport env d).success = true →
      stageLabels (runExport env d)
        = ["downloading", "processing", "encoding", "uploading", "completed"]) ∧
    ((runExport env d).success = false → (runExport env d).failedEmitted = true) := by
  have hdl : ∀ y ∈ (dlLoop env d.clips.length d.clips 0).events.map (fun e => e.status),
      y = "downloading" := by
    intro y hy
    rcases List.mem_map.mp hy with ⟨e, he, rfl⟩
    exact dlLoop_status env _ d.clips 0 e he
  have hpr : ∀ y ∈ (procLoop env d.audioMix d.clips.length d.clips 0).events.map
      (fun e => e.status), y = "processing" := by
    intro y hy
    rcases List.mem_map.mp hy with ⟨e, he, rfl⟩
    exact procLoop_status env _ _ d.clips 0 e he
  simp only [runExport]
  repeat' split
  all_goals constructor
  all_goals first
    | (intro h; exact Bool.noConfusion h)
    | (intro _; rfl)
    | (intro _
       unfold stageLabels
       dsimp only
       simp only [List.map_append, List.map_cons, List.map_nil, List.append_assoc,
         List.cons_append, List.nil_append]
       rw [collapseRuns_absorb _ _ _ hdl]
       rw [collapseRuns_cons_cons_ne _ _ _ (by decide)]
       rw [collapseRuns_absorb _ _ _ hpr]
       decide)

/-- Witness for C7: a concrete all-success run of a one-clip export. -/
theorem export_stage_order_witness :
    stageLabels (runExport allOkEnv c7Req)
      = ["downloading", "processing", "encoding", "uploading", "completed"] :=
  (export_stage_order allOkEnv c7Req).1 (by decide)

/-- C7 counterexample: a successful export run never emits the
`concatenating` stage label claimed by the spec (the concatenation pass is
labelled `encoding`). -/
theorem export_labels_cex :
    (runExport allOkEnv c7Req).success = true ∧
    "concatenating" ∉ (runExport allOkEnv c7Req).events.map (fun e => e.status) := by
  constructor <;> decide

/-- C6 amended: on a *successful* run every scratch file created during the
run is removed by the cleanup block; a failing run performs no cleanup (see
the counterexample). -/
theorem cleanup_on_success (env : ExportEnv) (d : ExportRequest)
    (h : (runExport env d).success = true) :
    ∀ f ∈ (runExport env d).created, f ∈ (runExport env d).removed := by
  intro f hf
  cases h1 : (dlLoop env d.clips.length d.clips 0).ok
  · exfalso; simp [runExport, h1, mkFailedRun] at h
  cases h2 : (procLoop env d.audioMix d.clips.length d.clips 0).ok
  · exfalso; simp [runExport, h1, h2, mkFailedRun] at h
  cases h3 : env.concatOk
  · exfalso; simp [runExport, h1, h2, h3, mkFailedRun] at h
  cases h4 : (if burnWanted d then env.burnOk else env.copyOk)
  · exfalso; simp [runExport, h1, h2, h3, h4, mkFailedRun] at h
  cases h5 : env.uploadOk
  · exfalso; simp [runExport, h1, h2, h3, h4, h5, mkFailedRun] at h
  simp only [runExport, h1, h2, h3, h4, h5, if_true] at hf ⊢
  simp only [List.mem_append, List.mem_cons, List.mem_singleton, List.not_mem_nil] at hf ⊢
  tauto

/-- Witness for C6: in an all-success two-clip run, the first downloaded
video file is removed by cleanup. -/
theorem cleanup_on_success_witness :
    "video_0.mp4" ∈ (runExport allOkEnv c6Req).removed :=
  cleanup_on_success allOkEnv c6Req (by decide) "video_0.mp4" (by decide)

/-- C6 counterexample: when the narration download of clip B fails, the run
fails with clip A's already-downloaded assets (and clip B's video) still on
disk — the catch block performs no cleanup at all. -/
theorem cleanup_missing_on_failure_cex :
    (runExport c6Env c6Req).success = false ∧
    "video_0.mp4" ∈ (runExport c6Env c6Req).created ∧
    (runExport c6Env c6Req).removed = [] := by
  refine ⟨by decide, by decide, by decide⟩

lemma runExport_gains (env : ExportEnv) (d : ExportRequest) :
    (runExport env d).gains = (procLoop env d.audioMix d.clips.length d.clips 0).gains ∨
      (runExport env d).gains = [] := by
  simp only [runExport]
  repeat' split
  all_goals simp [mkFailedRun]

/-- C8 amended: with `audioMix = r ∈ [0,1]`, every per-clip mix uses native
gain `toFixed2 (1 - r)` and narration gain `toFixed2 r` — the exact gains of
the claim rounded to two decimals by `Number.prototype.toFixed(2)` —
identically for every clip of the export. -/
theorem audioMix_gains (env : ExportEnv) (d : ExportRequest)
    (h0 : 0 ≤ d.audioMix) (h1 : d.audioMix ≤ 1) :
    ∀ g ∈ (runExport env d).gains,
      g = (toFixed2 (1 - d.audioMix), toFixed2 d.audioMix) := by
  intro g hg
  have hmax1 : max 0 (1 - d.audioMix) = 1 - d.audioMix := max_eq_right (by linarith)
  have hmax2 : max 0 d.audioMix = d.audioMix := max_eq_right h0
  rcases runExport_gains env d with he | he
  · rw [he] at hg
    have key := procLoop_gains env d.audioMix d.clips.length d.clips 0 g hg
    rw [hmax1, hmax2] at key
    exact key
  · rw [he] at hg
    simp at hg

/-- Witness for C8: the one recorded gain pair of a concrete
`audioMix = 0.8` export. -/
theorem audioMix_gains_witness :
    (toFixed2 (max 0 (1 - c8Req.audioMix)), toFixed2 (max 0 c8Req.audioMix))
      = (toFixed2 (1 - c8Req.audioMix), toFixed2 c8Req.audioMix) :=
  audioMix_gains allOkEnv c8Req (by norm_num [c8Req]) (by norm_num [c8Req]) _
    (by simp [runExport, dlLoop, procLoop, c8Req, allOkEnv])

/-- C8 counterexample: for `audioMix = 0.125` the gains actually applied
are `0.88` and `0.13` — `toFixed(2)` rounding — not the claim's exact
`1 − r = 0.875` and `r = 0.125`. -/
theorem audioMix_rounding_cex :
    (runExport allOkEnv c8CexReq).gains = [(22 / 25, 13 / 100)] ∧
    ((13 : ℚ) / 100 ≠ 1 / 8) ∧ ((22 : ℚ) / 25 ≠ 1 - 1 / 8) := by
  refine ⟨?_, by norm_num, by norm_num⟩
  norm_num [runExport, dlLoop, procLoop, c8CexReq, allOkEnv, toFixed2, max_def]

end ViralShorts
